import Mathlib

/-!
Verification of the parallel benchmark harness of the Ray overview notebook
(regression benchmark: sequential vs. parallel hyperparameter sweep).

The numeric kernel (fitting a `RandomForestRegressor` and computing the mean
squared error) is an external library call; it is abstracted as a function
parameter `fitPredictMse`.  Everything structural — the parameter sweep
`8 + 4*j`, the collection of `(n_estimators, score)` pairs, the order of
submission and collection, and the best-result selection
`min(mse_scores, key=itemgetter(1))` — is translated from the notebook code.

The concurrency substrate (`ray.put`, `.remote`, `ray.get`) is an external
collaborator; it is modelled from the spec's interface contract: `put` stores
a value and yields a reference, submission is non-blocking and yields one
pending handle per job, and the single collection step resolves all handles
in submission order.
-/

namespace RayWorkshop

/-- Python `range(n)` as a list of integers: `[0, 1, ..., n-1]`, empty when
`n ≤ 0` (this is Python semantics for a nonpositive stop argument). -/
def pyRange (n : Int) : List Int := (List.range n.toNat).map Int.ofNat

/-- The shared, read-only inputs of every job: training/test features and
training/test labels (`X_train`, `X_test`, `y_train`, `y_test`). -/
structure SharedInput (α β : Type) where
  X_train : α
  X_test : α
  y_train : β
  y_test : β

/-- `NUM_MODELS = 20` from the notebook. -/
def NUM_MODELS : Int := 20

/-- Embedding of `train_and_score_model`: the sklearn fit/predict/score
pipeline is the abstract kernel `fitPredictMse`; the function returns the
pair `(n_estimators, score)`, echoing its hyperparameter. -/
def train_and_score_model {α β : Type} (fitPredictMse : α → α → β → β → Int → ℚ)
    (train_set test_set : α) (train_labels test_labels : β)
    (n_estimators : Int) : Int × ℚ :=
  (n_estimators, fitPredictMse train_set test_set train_labels test_labels n_estimators)

/-- Embedding of `run_sequential`: one `train_and_score_model` call per
`j in range(n_models)`, with `n_estimators = 8 + 4*j`, collected in order. -/
def run_sequential {α β : Type} (fitPredictMse : α → α → β → β → Int → ℚ)
    (inp : SharedInput α β) (n_models : Int) : List (Int × ℚ) :=
  (pyRange n_models).map fun j =>
    train_and_score_model fitPredictMse inp.X_train inp.X_test inp.y_train
      inp.y_test (8 + 4 * j)

/-- Modelled from the spec: a pending-result handle (object reference).  A
handle holds the not-yet-forced computation of its job; the executor is a
pure function, so resolving the handle yields the job's deterministic
result. -/
structure ObjectRef (γ : Type) where
  value : Unit → γ

/-- Modelled from the spec: the shared-store primitive `put(value)` returns a
reference usable by submitted jobs without re-transmitting the value. -/
def ray_put {γ : Type} (v : γ) : ObjectRef γ := ⟨fun _ => v⟩

/-- Modelled from the spec: dereferencing an object reference yields the
stored value (Ray dereferences argument object references before the remote
function body runs). -/
def deref {γ : Type} (r : ObjectRef γ) : γ := r.value ()

/-- Modelled from the spec: the handle-based submission primitive
`submit(job) → handle` is non-blocking and returns one pending handle. -/
def remote_submit {γ : Type} (job : Unit → γ) : ObjectRef γ := ⟨job⟩

/-- Modelled from the spec: the collection primitive `collect(handles)`
blocks until every handle resolves and returns the resolved results in
submission order. -/
def ray_get {γ : Type} (refs : List (ObjectRef γ)) : List γ := refs.map deref

/-- Embedding of `run_parallel`: the four datasets are placed in the object
store once, one remote task per `j in range(n_models)` is submitted
(non-blocking), and a single `ray.get` collects the results in submission
order. -/
def run_parallel {α β : Type} (fitPredictMse : α → α → β → β → Int → ℚ)
    (inp : SharedInput α β) (n_models : Int) : List (Int × ℚ) :=
  let X_train_ref := ray_put inp.X_train
  let X_test_ref := ray_put inp.X_test
  let y_train_ref := ray_put inp.y_train
  let y_test_ref := ray_put inp.y_test
  let results_ref := (pyRange n_models).map fun j =>
    remote_submit fun _ =>
      train_and_score_model fitPredictMse (deref X_train_ref) (deref X_test_ref)
        (deref y_train_ref) (deref y_test_ref) (8 + 4 * j)
  ray_get results_ref

/-- One comparison step of Python `min(xs, key=itemgetter(1))`: the running
best is replaced only when the new item's key is strictly smaller, so the
earliest item with the minimal key wins. -/
def minStep (b a : Int × ℚ) : Int × ℚ := if a.2 < b.2 then a else b

/-- Embedding of `min(mse_scores, key=itemgetter(1))`: `none` models the
`ValueError` Python raises on an empty sequence. -/
def pyMinByScore : List (Int × ℚ) → Option (Int × ℚ)
  | [] => none
  | x :: xs => some (xs.foldl minStep x)

/-- Default element used with `List.getD` when stating positional facts. -/
def dflt : Int × ℚ := (0, 0)

/-- `m` is the first minimum of `l`: it occurs at some position `i`, its
score is a lower bound of all scores, and every earlier position has a
strictly larger score. -/
def FirstMin (l : List (Int × ℚ)) (m : Int × ℚ) : Prop :=
  ∃ i < l.length, l.getD i dflt = m ∧
    (∀ j < l.length, m.2 ≤ (l.getD j dflt).2) ∧
    (∀ j < i, m.2 < (l.getD j dflt).2)

/-- The notebook's illustrative ResultSet `[(8, 0.2983), (12, 0.2826),
(16, 0.2761), (24, 0.2694)]`. -/
def exampleResultSet : List (Int × ℚ) :=
  [(8, 2983/10000), (12, 2826/10000), (16, 2761/10000), (24, 2694/10000)]

/-- The JobSpec generator: the parameter values `8 + 4*j` for
`j in range(n_models)`, as inlined in both runners. -/
def jobspec_params (n_models : Int) : List Int :=
  (pyRange n_models).map fun j => 8 + 4 * j

/-- State-passing form of `train_and_score_model`: the body reads the four
shared datasets (`model.fit`, `model.predict`, `mean_squared_error` take them
as read-only arguments) and assigns to none of them, so the post-state of the
shared input equals the pre-state. -/
def train_and_score_model_st {α β : Type} (fitPredictMse : α → α → β → β → Int → ℚ)
    (inp : SharedInput α β) (n_estimators : Int) : (Int × ℚ) × SharedInput α β :=
  ((n_estimators, fitPredictMse inp.X_train inp.X_test inp.y_train inp.y_test n_estimators),
    inp)

/-- One step of the state-passing run: execute job `j` against the current
shared input, append its result, and thread the post-state onward. -/
def st_step {α β : Type} (fitPredictMse : α → α → β → β → Int → ℚ)
    (acc : List (Int × ℚ) × SharedInput α β) (j : Int) :
    List (Int × ℚ) × SharedInput α β :=
  let r := train_and_score_model_st fitPredictMse acc.2 (8 + 4 * j)
  (acc.1 ++ [r.1], r.2)

/-- The sequential run in state-passing form: each job receives the shared
input left by the previous job and returns the (possibly updated) shared
input together with its result. -/
def run_jobs_st {α β : Type} (fitPredictMse : α → α → β → β → Int → ℚ)
    (inp : SharedInput α β) (n_models : Int) : List (Int × ℚ) × SharedInput α β :=
  (pyRange n_models).foldl (st_step fitPredictMse) ([], inp)

/-- Fallible kernel form of `train_and_score_model`: the fit/predict/score
kernel may fail (raise) instead of producing a score; the failure propagates
out of the function, otherwise the `(n_estimators, score)` pair is returned. -/
def train_and_score_model_exc {α β ε : Type} (kernel : α → α → β → β → Int → Except ε ℚ)
    (train_set test_set : α) (train_labels test_labels : β)
    (n_estimators : Int) : Except ε (Int × ℚ) :=
  match kernel train_set test_set train_labels test_labels n_estimators with
  | Except.error e => Except.error e
  | Except.ok s => Except.ok (n_estimators, s)

/-- The outcome of the `j`-th job under a fallible kernel, exactly as both
runners invoke it: shared inputs plus `n_estimators = 8 + 4*j`. -/
def job_outcome {α β ε : Type} (kernel : α → α → β → β → Int → Except ε ℚ)
    (inp : SharedInput α β) (j : Int) : Except ε (Int × ℚ) :=
  train_and_score_model_exc kernel inp.X_train inp.X_test inp.y_train inp.y_test
    (8 + 4 * j)

/-- Collection over a list of job outcomes: the first failure in list order is
surfaced to the caller (a raise in the sequential comprehension, a re-raised
task error in `ray.get`); if every job succeeded the results are returned in
order. -/
def collect_all {ε γ : Type} : List (Except ε γ) → Except ε (List γ)
  | [] => Except.ok []
  | Except.error e :: _ => Except.error e
  | Except.ok v :: rest =>
    match collect_all rest with
    | Except.error e => Except.error e
    | Except.ok vs => Except.ok (v :: vs)

/-- `run_sequential` under a fallible kernel: jobs run in order and the first
raise aborts the comprehension and propagates to the caller. -/
def run_sequential_exc {α β ε : Type} (kernel : α → α → β → β → Int → Except ε ℚ)
    (inp : SharedInput α β) (n_models : Int) : Except ε (List (Int × ℚ)) :=
  collect_all ((pyRange n_models).map fun j => job_outcome kernel inp j)

/-- `run_parallel` under a fallible kernel: all jobs are submitted
(non-blocking, submission itself cannot fail), and the single blocking
`ray.get` surfaces the first failed task in submission order, otherwise
returns all results in submission order. -/
def run_parallel_exc {α β ε : Type} (kernel : α → α → β → β → Int → Except ε ℚ)
    (inp : SharedInput α β) (n_models : Int) : Except ε (List (Int × ℚ)) :=
  let X_train_ref := ray_put inp.X_train
  let X_test_ref := ray_put inp.X_test
  let y_train_ref := ray_put inp.y_train
  let y_test_ref := ray_put inp.y_test
  let results_ref := (pyRange n_models).map fun j =>
    remote_submit fun _ =>
      train_and_score_model_exc kernel (deref X_train_ref) (deref X_test_ref)
        (deref y_train_ref) (deref y_test_ref) (8 + 4 * j)
  collect_all (ray_get results_ref)

/-- Concrete shared input used to instantiate the generic theorems. -/
def trivInput : SharedInput Unit Unit := ⟨(), (), (), ()⟩

/-- Concrete deterministic kernel used to instantiate the generic theorems. -/
def trivKernel : Unit → Unit → Unit → Unit → Int → ℚ := fun _ _ _ _ _ => 0

/-- Concrete fallible kernel that fails exactly on `n_estimators = 12`
(i.e. on job index 1) with error code 7 and succeeds elsewhere. -/
def failAt12Kernel : Unit → Unit → Unit → Unit → Int → Except Nat ℚ :=
  fun _ _ _ _ n => if n = 12 then Except.error 7 else Except.ok 0

lemma foldl_minStep_spec (xs : List (Int × ℚ)) : ∀ x : Int × ℚ,
    (xs.foldl minStep x = x ∧ ∀ j < xs.length, x.2 ≤ (xs.getD j dflt).2) ∨
    (∃ i < xs.length, xs.foldl minStep x = xs.getD i dflt ∧
      (xs.getD i dflt).2 < x.2 ∧
      (∀ j < xs.length, (xs.getD i dflt).2 ≤ (xs.getD j dflt).2) ∧
      (∀ j < i, (xs.getD i dflt).2 < (xs.getD j dflt).2)) := by
  induction xs with
  | nil =>
    intro x
    exact Or.inl ⟨rfl, by intro j hj; simp at hj⟩
  | cons y ys ih =>
    intro x
    have hstep : (y :: ys).foldl minStep x = ys.foldl minStep (minStep x y) := rfl
    by_cases hy : y.2 < x.2
    · -- the head improves on the accumulator: continue with `y`
      have hmin : minStep x y = y := by simp [minStep, hy]
      rcases ih y with ⟨heq, hle⟩ | ⟨i, hi, heq, hlt, hle, hstrict⟩
      · refine Or.inr ⟨0, by simp, ?_, ?_, ?_, ?_⟩
        · simp [hstep, hmin, heq]
        · simpa using hy
        · intro j hj
          match j with
          | 0 => simp
          | Nat.succ k =>
            have hk : k < ys.length := by simpa using hj
            simpa using hle k hk
        · intro j hj; omega
      · refine Or.inr ⟨i + 1, by simpa using Nat.succ_lt_succ hi, ?_, ?_, ?_, ?_⟩
        · simp [hstep, hmin, heq]
        · have := hlt
          simp only [List.getD_cons_succ]
          exact lt_trans this hy
        · intro j hj
          match j with
          | 0 => simpa using le_of_lt hlt
          | Nat.succ k =>
            have hk : k < ys.length := by simpa using hj
            simpa using hle k hk
        · intro j hj
          match j with
          | 0 => simpa using hlt
          | Nat.succ k =>
            have hk : k < i := by omega
            simpa using hstrict k hk
    · -- the head does not improve: continue with `x`
      have hxy : x.2 ≤ y.2 := le_of_not_lt hy
      have hmin : minStep x y = x := by simp [minStep, hy]
      rcases ih x with ⟨heq, hle⟩ | ⟨i, hi, heq, hlt, hle, hstrict⟩
      · refine Or.inl ⟨by simpa [hstep, hmin] using heq, ?_⟩
        intro j hj
        match j with
        | 0 => simpa using hxy
        | Nat.succ k =>
          have hk : k < ys.length := by simpa using hj
          simpa using hle k hk
      · refine Or.inr ⟨i + 1, by simpa using Nat.succ_lt_succ hi, ?_, ?_, ?_, ?_⟩
        · simp [hstep, hmin, heq]
        · simpa using hlt
        · intro j hj
          match j with
          | 0 => simpa using le_trans (le_of_lt hlt) hxy
          | Nat.succ k =>
            have hk : k < ys.length := by simpa using hj
            simpa using hle k hk
        · intro j hj
          match j with
          | 0 => simpa using lt_of_lt_of_le hlt hxy
          | Nat.succ k =>
            have hk : k < i := by omega
            simpa using hstrict k hk

lemma pyMinByScore_first_min (l : List (Int × ℚ)) (hl : l ≠ []) :
    ∃ m, pyMinByScore l = some m ∧ FirstMin l m := by
  match l with
  | [] => exact absurd rfl hl
  | x :: xs =>
    refine ⟨xs.foldl minStep x, rfl, ?_⟩
    rcases foldl_minStep_spec xs x with ⟨heq, hle⟩ | ⟨i, hi, heq, hlt, hle, hstrict⟩
    · refine ⟨0, by simp, by simpa using heq.symm, ?_, ?_⟩
      · intro j hj
        match j with
        | 0 => simp [heq]
        | Nat.succ k =>
          have hk : k < xs.length := by simpa using hj
          simpa [heq] using hle k hk
      · intro j hj; omega
    · refine ⟨i + 1, by simpa using Nat.succ_lt_succ hi, by simpa using heq.symm, ?_, ?_⟩
      · intro j hj
        match j with
        | 0 => simpa [heq] using le_of_lt hlt
        | Nat.succ k =>
          have hk : k < xs.length := by simpa using hj
          simpa [heq] using hle k hk
      · intro j hj
        match j with
        | 0 => simpa [heq] using hlt
        | Nat.succ k =>
          have hk : k < i := by omega
          simpa [heq] using hstrict k hk

lemma pyRange_length (n : Int) : (pyRange n).length = n.toNat := by
  simp [pyRange]

lemma getD_map_range {γ : Type} (g : Nat → γ) (d : γ) (n j : Nat) (hj : j < n) :
    ((List.range n).map g).getD j d = g j := by
  rw [List.getD_eq_getElem _ _ (by simpa using hj)]
  simp

lemma run_sequential_eq_map {α β : Type} (f : α → α → β → β → Int → ℚ)
    (inp : SharedInput α β) (n : Int) :
    run_sequential f inp n = (List.range n.toNat).map fun k =>
      train_and_score_model f inp.X_train inp.X_test inp.y_train inp.y_test
        (8 + 4 * Int.ofNat k) := by
  simp [run_sequential, pyRange, List.map_map, Function.comp]

lemma run_parallel_eq_sequential {α β : Type} (f : α → α → β → β → Int → ℚ)
    (inp : SharedInput α β) (n : Int) :
    run_parallel f inp n = run_sequential f inp n := by
  simp [run_parallel, run_sequential, ray_get, deref, ray_put, remote_submit,
    List.map_map, Function.comp]

lemma jobspec_params_eq_map (n : Int) :
    jobspec_params n = (List.range n.toNat).map fun k => 8 + 4 * Int.ofNat k := by
  simp [jobspec_params, pyRange, List.map_map, Function.comp]

lemma jobspec_params_strict_mono (n : Int) :
    (jobspec_params n).Pairwise (· < ·) := by
  rw [jobspec_params_eq_map, List.pairwise_map]
  refine (List.pairwise_lt_range n.toNat).imp ?_
  intro a b hab
  simp only [Int.ofNat_eq_coe]
  omega

lemma foldl_st_step_snd {α β : Type} (f : α → α → β → β → Int → ℚ)
    (l : List Int) : ∀ acc : List (Int × ℚ) × SharedInput α β,
    (l.foldl (st_step f) acc).2 = acc.2 := by
  induction l with
  | nil => intro acc; rfl
  | cons y ys ih =>
    intro acc
    simpa [st_step, train_and_score_model_st] using ih _

lemma foldl_st_step_fst {α β : Type} (f : α → α → β → β → Int → ℚ)
    (l : List Int) : ∀ acc : List (Int × ℚ) × SharedInput α β,
    (l.foldl (st_step f) acc).1 = acc.1 ++ l.map fun j =>
      (train_and_score_model_st f acc.2 (8 + 4 * j)).1 := by
  induction l with
  | nil => intro acc; simp
  | cons y ys ih =>
    intro acc
    simp only [List.foldl_cons, List.map_cons]
    rw [ih]
    simp [st_step, train_and_score_model_st]

lemma collect_all_reports_first_error {ε γ : Type} :
    ∀ (l : List (Except ε γ)) (k : Nat) (hk : k < l.length) (e : ε),
      l.get ⟨k, hk⟩ = Except.error e →
      (∀ (j : Nat) (hj : j < l.length), j < k → ∃ v, l.get ⟨j, hj⟩ = Except.ok v) →
      collect_all l = Except.error e := by
  intro l
  induction l with
  | nil => intro k hk; simp at hk
  | cons x xs ih =>
    intro k hk e hke hok
    match k with
    | 0 =>
      simp only [List.get] at hke
      rw [hke]
      rfl
    | Nat.succ k =>
      obtain ⟨v, hv⟩ := hok 0 (by simp) (Nat.succ_pos k)
      simp only [List.get] at hv hke
      have hrest : collect_all xs = Except.error e := by
        refine ih k (by simpa using hk) e hke ?_
        intro j hj hjk
        obtain ⟨w, hw⟩ := hok (j + 1) (by simpa using hj) (by omega)
        exact ⟨w, by simpa using hw⟩
      rw [hv]
      simp [collect_all, hrest]

lemma run_parallel_exc_eq_sequential {α β ε : Type}
    (kernel : α → α → β → β → Int → Except ε ℚ)
    (inp : SharedInput α β) (n : Int) :
    run_parallel_exc kernel inp n = run_sequential_exc kernel inp n := by
  simp only [run_parallel_exc, run_sequential_exc, ray_get, List.map_map]
  rfl

lemma pyRange_get (n : Int) (k : Nat) (hk : k < (pyRange n).length) :
    (pyRange n).get ⟨k, hk⟩ = Int.ofNat k := by
  simp [pyRange]

/-- Claim C1: on every non-empty ResultSet the Result Selector
(`min(mse_scores, key=itemgetter(1))`) returns the JobResult with minimal
score, ties broken by first occurrence in ResultSet order; on the ResultSet
`[(8, 0.2983), (12, 0.2826), (16, 0.2761), (24, 0.2694)]` it returns
`(24, 0.2694)`. -/
theorem selector_returns_first_min :
    (∀ l : List (Int × ℚ), l ≠ [] → ∃ m, pyMinByScore l = some m ∧ FirstMin l m) ∧
    pyMinByScore exampleResultSet = some (24, 2694/10000) := by
  refine ⟨pyMinByScore_first_min, ?_⟩
  norm_num [pyMinByScore, exampleResultSet, minStep]

/-- Witness for C1: the universal part applied to the notebook's concrete
ResultSet, its non-emptiness hypothesis discharged. -/
theorem selector_returns_first_min_witness :
    exampleResultSet ≠ [] ∧
    ∃ m, pyMinByScore exampleResultSet = some m ∧ FirstMin exampleResultSet m :=
  ⟨by simp [exampleResultSet],
    selector_returns_first_min.1 exampleResultSet (by simp [exampleResultSet])⟩

/-- Claim C2: for every count, `run_sequential` and `run_parallel` applied to
the same JobSpec sequence and SharedInput produce element-wise equal
ResultSets (same pairs, same order). -/
theorem runners_equivalent : ∀ (α β : Type) (f : α → α → β → β → Int → ℚ)
    (inp : SharedInput α β) (N : Nat),
    run_parallel f inp (Int.ofNat N) = run_sequential f inp (Int.ofNat N) := by
  intro α β f inp N
  exact run_parallel_eq_sequential f inp (Int.ofNat N)

/-- Claim C3: the JobSpec generator is deterministic and pure: its j-th value
is `base + step*j = 8 + 4*j`, and for `N = 20` the sequence is exactly
`[8, 12, ..., 84]` of length 20. -/
theorem jobspec_generator_correct :
    (∀ N : Nat, (jobspec_params (Int.ofNat N)).length = N) ∧
    (∀ N k : Nat, k < N → (jobspec_params (Int.ofNat N)).getD k 0 = 8 + 4 * (k : Int)) ∧
    jobspec_params 20 =
      [8, 12, 16, 20, 24, 28, 32, 36, 40, 44, 48, 52, 56, 60, 64, 68, 72, 76, 80, 84] ∧
    (jobspec_params 20).length = 20 := by
  refine ⟨?_, ?_, by decide, by decide⟩
  · intro N
    simp [jobspec_params, pyRange]
  · intro N k hk
    rw [jobspec_params_eq_map]
    rw [getD_map_range _ _ _ _ (by simpa using hk)]
    simp

/-- Witness for C3: the positional fact applied at `N = 20`, `k = 3`. -/
theorem jobspec_generator_correct_witness :
    (3 : Nat) < 20 ∧ (jobspec_params (Int.ofNat 20)).getD 3 0 = 8 + 4 * ((3 : Nat) : Int) :=
  ⟨by decide, jobspec_generator_correct.2.1 20 3 (by decide)⟩

/-- Claim C4: the Result Selector applied to an empty ResultSet reports an
error (the `ValueError` of Python `min`, modelled as `none`) rather than
returning a value; moreover the empty ResultSet is the only input on which it
fails. -/
theorem selector_empty_reports_error :
    pyMinByScore [] = none ∧
    ∀ l : List (Int × ℚ), pyMinByScore l = none ↔ l = [] := by
  refine ⟨rfl, ?_⟩
  intro l
  cases l <;> simp [pyMinByScore]

/-- Claim C5: for every N the ResultSet of either runner has length N, the
k-th result is the result of the k-th submitted JobSpec (submission order is
preserved), and for N = 0 both runners return the empty ResultSet. -/
theorem resultset_length_and_order : ∀ (α β : Type)
    (f : α → α → β → β → Int → ℚ) (inp : SharedInput α β),
    (∀ N : Nat, (run_sequential f inp (Int.ofNat N)).length = N ∧
      (run_parallel f inp (Int.ofNat N)).length = N) ∧
    (∀ (n : Int) (k : Nat), k < (run_sequential f inp n).length →
      (run_sequential f inp n).getD k dflt =
        train_and_score_model f inp.X_train inp.X_test inp.y_train inp.y_test
          (8 + 4 * (k : Int)) ∧
      (run_parallel f inp n).getD k dflt =
        train_and_score_model f inp.X_train inp.X_test inp.y_train inp.y_test
          (8 + 4 * (k : Int))) ∧
    run_sequential f inp 0 = [] ∧ run_parallel f inp 0 = [] := by
  intro α β f inp
  have hlen : ∀ n : Int, (run_sequential f inp n).length = n.toNat := by
    intro n
    simp [run_sequential, pyRange_length]
  refine ⟨?_, ?_, ?_, ?_⟩
  · intro N
    constructor
    · simp [hlen]
    · rw [run_parallel_eq_sequential]
      simp [hlen]
  · intro n k hk
    rw [hlen] at hk
    have hseq : (run_sequential f inp n).getD k dflt =
        train_and_score_model f inp.X_train inp.X_test inp.y_train inp.y_test
          (8 + 4 * (k : Int)) := by
      rw [run_sequential_eq_map]
      rw [getD_map_range _ _ _ _ hk]
      simp
    exact ⟨hseq, by rw [run_parallel_eq_sequential]; exact hseq⟩
  · simp [run_sequential, pyRange]
  · rw [run_parallel_eq_sequential]
    simp [run_sequential, pyRange]

/-- Witness for C5: the positional fact applied at `n = 3`, `k = 1` with a
concrete kernel and shared input. -/
theorem resultset_length_and_order_witness :
    1 < (run_sequential trivKernel trivInput 3).length ∧
    ((run_sequential trivKernel trivInput 3).getD 1 dflt =
      train_and_score_model trivKernel trivInput.X_train trivInput.X_test
        trivInput.y_train trivInput.y_test (8 + 4 * ((1 : Nat) : Int)) ∧
     (run_parallel trivKernel trivInput 3).getD 1 dflt =
      train_and_score_model trivKernel trivInput.X_train trivInput.X_test
        trivInput.y_train trivInput.y_test (8 + 4 * ((1 : Nat) : Int))) :=
  ⟨by decide,
    (resultset_length_and_order Unit Unit trivKernel trivInput).2.1 3 1 (by decide)⟩

/-- Claim C6: the SharedInput is never mutated during a run: after executing
any number of jobs in state-passing form, every one of the four shared
datasets equals its initial value, and the results are those of
`run_sequential`. -/
theorem shared_input_unchanged : ∀ (α β : Type)
    (f : α → α → β → β → Int → ℚ) (inp : SharedInput α β) (n : Int),
    (run_jobs_st f inp n).2 = inp ∧
    (run_jobs_st f inp n).2.X_train = inp.X_train ∧
    (run_jobs_st f inp n).2.X_test = inp.X_test ∧
    (run_jobs_st f inp n).2.y_train = inp.y_train ∧
    (run_jobs_st f inp n).2.y_test = inp.y_test ∧
    (run_jobs_st f inp n).1 = run_sequential f inp n := by
  intro α β f inp n
  have h2 : (run_jobs_st f inp n).2 = inp := foldl_st_step_snd f (pyRange n) ([], inp)
  refine ⟨h2, by rw [h2], by rw [h2], by rw [h2], by rw [h2], ?_⟩
  have h1 := foldl_st_step_fst f (pyRange n) ([], inp)
  simp only [run_jobs_st]
  rw [h1]
  simp [run_sequential, train_and_score_model_st, train_and_score_model]

/-- Claim C7: a kernel failure for some job k out of N is surfaced to the
caller of the collection step (not swallowed), and the sequential and
concurrent runners report the same failure for job k given identical
inputs. -/
theorem job_failure_surfaced : ∀ (α β ε : Type)
    (kernel : α → α → β → β → Int → Except ε ℚ) (inp : SharedInput α β) (n : Int),
    run_sequential_exc kernel inp n = run_parallel_exc kernel inp n ∧
    ∀ (k : Nat) (e : ε), k < n.toNat →
      job_outcome kernel inp (Int.ofNat k) = Except.error e →
      (∀ j < k, ∃ v, job_outcome kernel inp (Int.ofNat j) = Except.ok v) →
      run_sequential_exc kernel inp n = Except.error e ∧
      run_parallel_exc kernel inp n = Except.error e := by
  intro α β ε kernel inp n
  refine ⟨(run_parallel_exc_eq_sequential kernel inp n).symm, ?_⟩
  intro k e hk hke hok
  have hseq : run_sequential_exc kernel inp n = Except.error e := by
    have hklen : k < ((pyRange n).map fun j => job_outcome kernel inp j).length := by
      simpa [pyRange_length] using hk
    refine collect_all_reports_first_error _ k hklen e ?_ ?_
    · rw [List.get_map]
      rw [pyRange_get]
      exact hke
    · intro j hj hjk
      obtain ⟨v, hv⟩ := hok j hjk
      refine ⟨v, ?_⟩
      rw [List.get_map]
      rw [pyRange_get]
      exact hv
  exact ⟨hseq, by rw [run_parallel_exc_eq_sequential]; exact hseq⟩

/-- Witness for C7: a kernel failing exactly on job 1 (`n_estimators = 12`)
out of 3 jobs makes both runners report that failure. -/
theorem job_failure_surfaced_witness :
    run_sequential_exc failAt12Kernel trivInput 3 = Except.error 7 ∧
    run_parallel_exc failAt12Kernel trivInput 3 = Except.error 7 :=
  (job_failure_surfaced Unit Unit Nat failAt12Kernel trivInput 3).2 1 7
    (by decide) rfl
    (by
      intro j hj
      have hj0 : j = 0 := by omega
      subst hj0
      exact ⟨(8, 0), rfl⟩)

/-- Claim C9: each JobResult echoes its job's parameter: the k-th result's
first component is `8 + 4*k` for both runners, so the parameter components
are strictly increasing (hence pairwise distinct) and the echoed parameter
determines the job index uniquely. -/
theorem results_echo_params : ∀ (α β : Type)
    (f : α → α → β → β → Int → ℚ) (inp : SharedInput α β) (n : Int),
    (run_sequential f inp n).map Prod.fst = jobspec_params n ∧
    (run_parallel f inp n).map Prod.fst = jobspec_params n ∧
    (∀ k : Nat, k < (run_sequential f inp n).length →
      ((run_sequential f inp n).getD k dflt).1 = 8 + 4 * (k : Int)) ∧
    ((run_sequential f inp n).map Prod.fst).Pairwise (· < ·) ∧
    (∀ i j : Nat, i < (run_sequential f inp n).length →
      j < (run_sequential f inp n).length →
      ((run_sequential f inp n).getD i dflt).1 =
        ((run_sequential f inp n).getD j dflt).1 → i = j) := by
  intro α β f inp n
  have hmap : (run_sequential f inp n).map Prod.fst = jobspec_params n := by
    rw [run_sequential_eq_map, jobspec_params_eq_map, List.map_map]
    rfl
  have hget : ∀ k : Nat, k < (run_sequential f inp n).length →
      ((run_sequential f inp n).getD k dflt).1 = 8 + 4 * (k : Int) := by
    intro k hk
    have hk2 : k < n.toNat := by
      simpa [run_sequential, pyRange_length] using hk
    rw [run_sequential_eq_map]
    rw [getD_map_range _ _ _ _ hk2]
    simp [train_and_score_model]
  refine ⟨hmap, by rw [run_parallel_eq_sequential]; exact hmap, hget, ?_, ?_⟩
  · rw [hmap]
    exact jobspec_params_strict_mono n
  · intro i j hi hj hij
    have h1 := hget i hi
    have h2 := hget j hj
    rw [h1, h2] at hij
    omega

/-- Witness for C9: the echo fact applied at `n = 3`, `k = 1` with a concrete
kernel and shared input. -/
theorem results_echo_params_witness :
    1 < (run_sequential trivKernel trivInput 3).length ∧
    ((run_sequential trivKernel trivInput 3).getD 1 dflt).1 = 8 + 4 * ((1 : Nat) : Int) :=
  ⟨by decide,
    (results_echo_params Unit Unit trivKernel trivInput 3).2.2.1 1 (by decide)⟩

/-- Claim C10: for every negative model count both runners return the empty
ResultSet rather than failing, because Python `range` of a negative stop is
empty — a negative count behaves like zero. -/
theorem negative_count_yields_empty : ∀ (α β : Type)
    (f : α → α → β → β → Int → ℚ) (inp : SharedInput α β) (n : Int), n < 0 →
    run_sequential f inp n = [] ∧ run_parallel f inp n = [] := by
  intro α β f inp n hn
  have h0 : n.toNat = 0 := Int.toNat_of_nonpos (le_of_lt hn)
  constructor
  · simp [run_sequential, pyRange, h0]
  · rw [run_parallel_eq_sequential]
    simp [run_sequential, pyRange, h0]

/-- Witness for C10: both runners applied to the count `-1`. -/
theorem negative_count_yields_empty_witness :
    (-1 : Int) < 0 ∧
    (run_sequential trivKernel trivInput (-1) = [] ∧
     run_parallel trivKernel trivInput (-1) = []) :=
  ⟨by decide, negative_count_yields_empty Unit Unit trivKernel trivInput (-1) (by decide)⟩

end RayWorkshop
